import Mathlib

/-!
Shallow embedding of the `download` crate (`src/download/src/lib.rs`):
the backend-fallback orchestrator, the streaming event protocol, the
local-file fast path, the hyper and curl transfer loops, the proxy
resolver, the file sink, and the TLS stream adapters.

External effects are made explicit parameters:
* the filesystem is a partial map from paths to byte lists,
* the environment is a partial map from variable names to strings,
* the network is a response value handed to the transfer loop,
* bytes are `Nat`s, byte buffers are `List Nat`.
-/

set_option autoImplicit false

namespace Download

/-- `enum Backend { Curl, Hyper, Rustls }` (lib.rs line 18). -/
inductive Backend where
  | Curl
  | Hyper
  | Rustls
deriving DecidableEq, Repr

/-- `enum Event` (lib.rs lines 20-26): content length, or a chunk of data. -/
inductive Event where
  | DownloadContentLengthReceived (len : Nat)
  | DownloadDataReceived (data : List Nat)
deriving DecidableEq, Repr

/-- Modelled from the spec: the crate's `errors` module (`mod errors`,
lib.rs line 14) is not part of the sources; its `ErrorKind` variants are
reconstructed from their construction and match sites in lib.rs
(`BackendUnavailable(name)`, `HttpStatus(code)`, `FileNotFound`, and the
string-message kind produced by `"...".into()` / `chain_err`) and from the
spec's error taxonomy. -/
inductive ErrorKind where
  | Msg (s : String)
  | BackendUnavailable (name : String)
  | HttpStatus (code : Nat)
  | FileNotFound
deriving DecidableEq, Repr

/-- Modelled from the spec: an `error_chain` error value, a kind plus the
chain of kinds of the errors it wraps.  Two errors are the same value only
when both the kind and the chain agree, so a `chain_err`-wrapped error is
never equal to the error it wraps. -/
structure Error where
  kind : ErrorKind
  cause : List ErrorKind
deriving DecidableEq, Repr

/-- `e.chain_err(|| k)`: wrap an error under a new kind. -/
def chainErr (e : Error) (k : ErrorKind) : Error :=
  ⟨k, e.kind :: e.cause⟩

/-- `Err("no working backends".into())` (lib.rs lines 45 and 60). -/
def noWorkingBackends : Error :=
  ⟨.Msg "no working backends", []⟩

/-- The pattern `Err(Error(ErrorKind::BackendUnavailable(_), _))`
(lib.rs lines 39 and 54): the error kind, and only the kind, is inspected. -/
def isUnavailable : Except Error Unit → Bool
  | .error e =>
    match e.kind with
    | .BackendUnavailable _ => true
    | _ => false
  | .ok _ => false

/-- `BACKENDS` (lib.rs lines 28-32): the fixed priority order. -/
def BACKENDS : List Backend :=
  [.Curl, .Hyper, .Rustls]

/-- The loop of `download` (lib.rs lines 37-45), instrumented with the list
of backends actually invoked.  `attempt b` stands for
`download_with_backend(b, url, callback)`. -/
def downloadLoop (attempt : Backend → Except Error Unit) :
    List Backend → List Backend × Except Error Unit
  | [] => ([], .error noWorkingBackends)
  | b :: rest =>
    match attempt b with
    | .error e =>
      match e.kind with
      | .BackendUnavailable _ =>
        let (tr, r) := downloadLoop attempt rest
        (b :: tr, r)
      | _ => ([b], .error e)
    | .ok () => ([b], .ok ())

/-- `download` (lib.rs lines 34-46): result of trying `BACKENDS` in order. -/
def download (attempt : Backend → Except Error Unit) : Except Error Unit :=
  (downloadLoop attempt BACKENDS).2

/-- The backends `download` invokes, in order (instrumentation of the same
loop). -/
def downloadInvoked (attempt : Backend → Except Error Unit) : List Backend :=
  (downloadLoop attempt BACKENDS).1

/-- A read loop filling a buffer of size `n` splits a byte stream into
chunks of at most `n` bytes, maximal except possibly the last (lib.rs
lines 571-587 and 639-645 with `n = 0x10000`).  The fuel argument bounds
the recursion; `chunksOf` instantiates it with the stream length, which
suffices because every chunk consumes at least one byte. -/
def chunksOfFuel (n : Nat) : Nat → List Nat → List (List Nat)
  | 0, _ => []
  | _, [] => []
  | fuel + 1, x :: xs => (x :: xs.take (n - 1)) :: chunksOfFuel n fuel (xs.drop (n - 1))

/-- The sequence of maximal `n`-byte reads of a stream. -/
def chunksOf (n : Nat) (l : List Nat) : List (List Nat) :=
  chunksOfFuel n l.length l

/-- Deliver a list of events to a callback in order, as the transfer loops
do: stop at the first callback failure.  Returns the events actually
delivered and the first callback error, if any. -/
def deliver (cb : Event → Except Error Unit) :
    List Event → List Event × Option Error
  | [] => ([], none)
  | ev :: rest =>
    match cb ev with
    | .error e => ([ev], some e)
    | .ok () =>
      let (evs, r) := deliver cb rest
      (ev :: evs, r)

/-- The events a network transfer presents to the callback: the content
length, when the response advertises one, followed by the data chunks. -/
def transferEvents (cl : Option Nat) (chunks : List (List Nat)) : List Event :=
  (match cl with
    | some len => [Event.DownloadContentLengthReceived len]
    | none => []) ++ chunks.map Event.DownloadDataReceived

/-- A URL as this crate consults it: the scheme, and the result of
`to_file_path()` (`none` when the conversion fails, i.e. a bogus file URL). -/
structure Url where
  scheme : String
  filePath : Option String
deriving DecidableEq, Repr

/-- `download_from_file_url` (lib.rs lines 617-651).  `fs` is the
filesystem: `fs p = some bytes` when `p` is a regular file with those
bytes.  Returns the events delivered to the callback together with the
`Result<bool>` of the source: `ok false` when the scheme is not `file`,
`ok true` on a completed local read, and the error otherwise. -/
def download_from_file_url (fs : String → Option (List Nat)) (url : Url)
    (cb : Event → Except Error Unit) : List Event × Except Error Bool :=
  if url.scheme = "file" then
    match url.filePath with
    | none => ([], .error ⟨.Msg "bogus file url", []⟩)
    | some p =>
      match fs p with
      | none => ([], .error ⟨.FileNotFound, []⟩)
      | some content =>
        let (evs, r) := deliver cb ((chunksOf 0x10000 content).map Event.DownloadDataReceived)
        match r with
        | some e => (evs, .error e)
        | none => (evs, .ok true)
  else ([], .ok false)

/-- The fields of a parsed proxy URL that `proxy_from_env` consults:
`host_str()` and `port()`. -/
structure ParsedUrl where
  host : Option String
  port : Option Nat
deriving DecidableEq, Repr

/-- `proxy_from_env` (lib.rs lines 590-615).  `env` is `var_os` (with the
source's lossy UTF-8 handling folded into the string), `parse` is
`Url::parse` restricted to the two fields read afterwards.  Note the
source consults `https_proxy` then `HTTPS_PROXY`, `all_proxy` then
`ALL_PROXY`, but only the lower-case `http_proxy`. -/
def proxy_from_env (env : String → Option String)
    (parse : String → Option ParsedUrl) (scheme : String) :
    Option (String × Nat) :=
  let maybe_https_proxy := (env "https_proxy").orElse fun _ => env "HTTPS_PROXY"
  let maybe_http_proxy := env "http_proxy"
  let maybe_all_proxy := (env "all_proxy").orElse fun _ => env "ALL_PROXY"
  let chosen : Option String :=
    match scheme with
    | "https" => maybe_https_proxy.or (maybe_http_proxy.or maybe_all_proxy)
    | "http" => maybe_http_proxy.or maybe_all_proxy
    | _ => maybe_all_proxy
  match chosen with
  | some url_value =>
    match parse url_value with
    | some proxy_url =>
      match proxy_url.host with
      | some host => some (host, proxy_url.port.getD 8080)
      | none => none
    | none => none
  | none => none

/-- The parts of a hyper HTTP response that `hyper_base::download` reads:
status code, the optional `Content-Length` header, and the body bytes. -/
structure HttpResponse where
  status : Nat
  contentLength : Option Nat
  body : List Nat
deriving DecidableEq, Repr

/-- `hyper_base::download` (lib.rs lines 525-588).  The network is the
`response` parameter: the outcome `client.get(url).send()` would produce
(already `chain_err`-wrapped on failure).  Returns the events delivered to
the callback and the overall result.  Structure of the source: the
`file:` scheme short-circuits before any client is built; an unsupported
scheme is rejected; a non-`hyper::Ok` (200) status fails with
`HttpStatus(code)`; otherwise the content length, when present, is
announced before the body is streamed in `0x10000`-byte reads. -/
def hyper_base_download (fs : String → Option (List Nat)) (url : Url)
    (env : String → Option String) (parse : String → Option ParsedUrl)
    (response : Except Error HttpResponse)
    (cb : Event → Except Error Unit) : List Event × Except Error Unit :=
  match download_from_file_url fs url cb with
  | (evs, .error e) => (evs, .error e)
  | (evs, .ok true) => (evs, .ok ())
  | (_, .ok false) =>
    let _maybe_proxy := proxy_from_env env parse url.scheme
    if url.scheme = "https" ∨ url.scheme = "http" then
      match response with
      | .error e => ([], .error e)
      | .ok res =>
        if res.status ≠ 200 then
          ([], .error ⟨.HttpStatus res.status, []⟩)
        else
          let evs := transferEvents res.contentLength (chunksOf 0x10000 res.body)
          match deliver cb evs with
          | (delivered, some e) => (delivered, .error e)
          | (delivered, none) => (delivered, .ok ())
    else ([], .error ⟨.Msg "unsupported URL scheme", []⟩)

/-- A libcurl-level transfer error, as far as the source inspects it:
only `is_file_couldnt_read_file()` is consulted (lib.rs line 198). -/
structure CurlErr where
  fileCouldntReadFile : Bool
deriving DecidableEq, Repr

/-- `curl::download` (lib.rs lines 129-216).  The wire is abstracted as
the `Content-Length` header value libcurl would report (`cl`), the data
chunks it would hand to the write callback (`chunks`), the transfer-level
error `perform()` would otherwise produce (`netErr`), and the final
response code (`code`).  A callback failure is stashed in `cberr` and
aborts the transfer, making `perform()` fail; the stashed error is then
returned verbatim (lib.rs lines 191-205).  A clean transfer fails with
`HttpStatus(code)` unless the code is 200 or 0 (lib.rs lines 208-212). -/
def curl_download (cl : Option Nat) (chunks : List (List Nat))
    (netErr : Option CurlErr) (code : Nat)
    (cb : Event → Except Error Unit) : List Event × Except Error Unit :=
  match deliver cb (transferEvents cl chunks) with
  | (delivered, some cberr) => (delivered, .error cberr)
  | (delivered, none) =>
    match netErr with
    | some e =>
      if e.fileCouldntReadFile then
        (delivered, .error (chainErr ⟨.Msg "curl error", []⟩ .FileNotFound))
      else
        (delivered, .error (chainErr ⟨.Msg "curl error", []⟩ (.Msg "error during download")))
    | none =>
      if code ≠ 200 ∧ code ≠ 0 then
        (delivered, .error ⟨.HttpStatus code, []⟩)
      else
        (delivered, .ok ())

/-- The `curl` module compiled without `feature = "curl-backend"`
(lib.rs lines 655-667): both arguments are ignored, no event is emitted,
and the result is the `BackendUnavailable` kind carrying the name. -/
def curl_unavailable (_url : Url) (_cb : Event → Except Error Unit) :
    List Event × Except Error Unit :=
  ([], .error ⟨.BackendUnavailable "curl", []⟩)

/-- The `hyper` module compiled without `feature = "hyper-backend"`
(lib.rs lines 669-681). -/
def hyper_unavailable (_url : Url) (_cb : Event → Except Error Unit) :
    List Event × Except Error Unit :=
  ([], .error ⟨.BackendUnavailable "hyper", []⟩)

/-- The `rustls` module compiled without `feature = "rustls-backend"`
(lib.rs lines 683-695). -/
def rustls_unavailable (_url : Url) (_cb : Event → Except Error Unit) :
    List Event × Except Error Unit :=
  ([], .error ⟨.BackendUnavailable "rustls", []⟩)

/-- The observable file and callback operations of
`download_to_path_with_backend`, in the order the source performs them. -/
inductive SinkOp where
  | createFile
  | writeData (data : List Nat)
  | callCb (ev : Event)
  | syncData
  | removeFile
deriving DecidableEq, Repr

/-- The wrapped callback of `download_to_path_with_backend` (lib.rs lines
89-98), run over the events the backend delivers: a data event is first
appended to the file, then the caller's callback (when supplied) receives
the event; a callback failure aborts the backend's transfer.  Disk writes
are modelled as always succeeding.  Returns the file content written so
far, the operation trace, and the first callback error if any. -/
def runSink (cb : Option (Event → Except Error Unit)) :
    List Event → List Nat → List Nat × List SinkOp × Except Error Unit
  | [], content => (content, [], .ok ())
  | ev :: rest, content =>
    let (content1, ops1) :=
      match ev with
      | .DownloadDataReceived d => (content ++ d, [SinkOp.writeData d])
      | .DownloadContentLengthReceived _ => (content, ([] : List SinkOp))
    match cb with
    | some f =>
      match f ev with
      | .error e => (content1, ops1 ++ [.callCb ev], .error e)
      | .ok () =>
        let (c, ops, r) := runSink cb rest content1
        (c, ops1 ++ [.callCb ev] ++ ops, r)
    | none =>
      let (c, ops, r) := runSink cb rest content1
      (c, ops1 ++ ops, r)

/-- `download_to_path_with_backend` (lib.rs lines 74-112).  The backend's
transfer is abstracted as the events it would deliver when every callback
call succeeds (`events`) plus its own final result (`final`); the real
backend stops delivering at the first callback failure, which `runSink`
reproduces.  The source creates the file, streams events through the
wrapped callback, syncs on success, and on any error deletes the
(existing) file and returns the error unchanged (`map_err` at lines
104-111).  Returns the file at the path after the call (`none`: no file),
the operation trace, and the result. -/
def download_to_path_with_backend (events : List Event)
    (final : Except Error Unit) (cb : Option (Event → Except Error Unit)) :
    Option (List Nat) × List SinkOp × Except Error Unit :=
  let (content, ops, r) := runSink cb events []
  match r with
  | .error e => (none, .createFile :: ops ++ [.removeFile], .error e)
  | .ok () =>
    match final with
    | .error e => (none, .createFile :: ops ++ [.removeFile], .error e)
    | .ok () => (some content, .createFile :: ops ++ [.syncData], .ok ())

/-- The loop of `download_to_path` (lib.rs lines 52-60), threading the
state of the file at the destination path across attempts.  `attempt b`
stands for backend `b`'s transfer script, as in
`download_to_path_with_backend`. -/
def downloadToPathLoop (attempt : Backend → List Event × Except Error Unit)
    (cb : Option (Event → Except Error Unit)) (disk : Option (List Nat)) :
    List Backend → Option (List Nat) × Except Error Unit
  | [] => (disk, .error noWorkingBackends)
  | b :: rest =>
    let (d, _ops, r) := download_to_path_with_backend (attempt b).1 (attempt b).2 cb
    match r with
    | .ok () => (d, .ok ())
    | .error e =>
      match e.kind with
      | .BackendUnavailable _ => downloadToPathLoop attempt cb d rest
      | _ => (d, .error e)

/-- `download_to_path` (lib.rs lines 48-61): the path-writing entry point,
starting with no file at the destination. -/
def download_to_path (attempt : Backend → List Event × Except Error Unit)
    (cb : Option (Event → Except Error Unit)) :
    Option (List Nat) × Except Error Unit :=
  downloadToPathLoop attempt cb none BACKENDS

/-- The events passed to the caller's callback, read off a sink trace. -/
def cbCalls (ops : List SinkOp) : List Event :=
  ops.filterMap fun op =>
    match op with
    | .callCb ev => some ev
    | _ => none

/-- The bytes of the data events of an event list, concatenated. -/
def dataBytes (events : List Event) : List Nat :=
  (events.filterMap fun ev =>
    match ev with
    | .DownloadDataReceived d => some d
    | _ => none).flatten

/-- Every `callCb` of a data event is immediately preceded by the write of
exactly that event's bytes. -/
def dataWritesPaired : List SinkOp → Bool
  | [] => true
  | .callCb (.DownloadDataReceived _) :: _ => false
  | .writeData d :: .callCb (.DownloadDataReceived d2) :: rest2 =>
    decide (d = d2) && dataWritesPaired rest2
  | .writeData _ :: rest => dataWritesPaired rest
  | _ :: rest => dataWritesPaired rest

/-- An I/O error as the TLS stream adapters produce them: either the
error a poisoned mutex is converted into (`io::Error::new(Other,
NativeSslPoisonError)`, lib.rs lines 290 and 440), or an error of the
underlying stream or TLS delegate. -/
inductive IoErr where
  | poisonedTls
  | underlying (code : Nat)
deriving DecidableEq, Repr

/-- The observable outcome of an adapter method: a Rust panic (from an
`unwrap`), or an ordinary return value. -/
inductive POr (α : Type) where
  | panicked (msg : String)
  | ret (a : α)
deriving DecidableEq, Repr

/-- `NativeSslStream::lock` (hyper: lib.rs lines 287-292, rustls: lines
437-442): acquire the mutex, converting a poisoning failure into an
ordinary I/O error. -/
def lockStream (poisoned : Bool) : Except IoErr Unit :=
  if poisoned then .error .poisonedTls else .ok ()

/-- A simple adapter operation, `self.lock().and_then(|t| <delegate>)`:
all of the hyper adapter's methods (`peer_addr`, `set_read_timeout`,
`set_write_timeout`, `close`, `read`, `write`, `flush`, lib.rs lines
294-335) and the rustls adapter's non-pumping methods (lines 444-463 and
499-504) have this shape, with `inner` the delegate's outcome.  No path
panics. -/
def locked_stream_op {α : Type} (poisoned : Bool) (inner : Except IoErr α) :
    POr (Except IoErr α) :=
  match lockStream poisoned with
  | .error e => .ret (.error e)
  | .ok () => .ret inner

/-- The rustls read pump (lib.rs lines 472-475): while the session wants
read, `tls.read_tls(stream).unwrap()` then
`tls.process_new_packets().unwrap()`.  The session's behaviour is the
finite script of iterations the loop performs: each entry gives
`read_tls`'s and `process_new_packets`'s outcomes for one iteration. -/
def readPump : List (Except IoErr Nat × Except String Unit) → POr Unit
  | [] => .ret ()
  | (rtls, proc) :: rest =>
    match rtls with
    | .error _ => .panicked "read_tls: unwrapped an Err value"
    | .ok _ =>
      match proc with
      | .error _ => .panicked "process_new_packets: unwrapped an Err value"
      | .ok () => readPump rest

/-- The rustls write pump (lib.rs lines 492-494): while the session wants
write, `tls.write_tls(stream).unwrap()`. -/
def writePump : List (Except IoErr Nat) → POr Unit
  | [] => .ret ()
  | w :: rest =>
    match w with
    | .error _ => .panicked "write_tls: unwrapped an Err value"
    | .ok _ => writePump rest

/-- `rustls::NativeSslStream::read` (lib.rs lines 465-480): lock (poison
converted to I/O error), run the read pump, then read plaintext from the
session (`plain` is that delegate outcome). -/
def rustls_read (poisoned : Bool)
    (pump : List (Except IoErr Nat × Except String Unit))
    (plain : Except IoErr (List Nat)) : POr (Except IoErr (List Nat)) :=
  match lockStream poisoned with
  | .error e => .ret (.error e)
  | .ok () =>
    match readPump pump with
    | .panicked msg => .panicked msg
    | .ret () => .ret plain

/-- `rustls::NativeSslStream::write` (lib.rs lines 482-498): lock (poison
converted to I/O error), hand plaintext to the session (`res` is
`tls.write(buf)`'s outcome), run the write pump, return `res`. -/
def rustls_write (poisoned : Bool) (res : Except IoErr Nat)
    (pump : List (Except IoErr Nat)) : POr (Except IoErr Nat) :=
  match lockStream poisoned with
  | .error e => .ret (.error e)
  | .ok () =>
    match writePump pump with
    | .panicked msg => .panicked msg
    | .ret () => .ret res

/-- A read-pump iteration in which both external calls succeed. -/
def pumpStepOk : Except IoErr Nat × Except String Unit → Bool
  | (.ok _, .ok ()) => true
  | _ => false

/-- A write-pump iteration in which `write_tls` succeeds. -/
def writeStepOk : Except IoErr Nat → Bool
  | .ok _ => true
  | .error _ => false

/-! ### Helper lemmas -/

theorem chunksOfFuel_flatten (n : Nat) :
    ∀ (fuel : Nat) (l : List Nat), l.length ≤ fuel →
      (chunksOfFuel n fuel l).flatten = l := by
  intro fuel
  induction fuel with
  | zero =>
    intro l hl
    cases l with
    | nil => rfl
    | cons x xs => simp at hl
  | succ fuel ih =>
    intro l hl
    cases l with
    | nil => rfl
    | cons x xs =>
      simp only [chunksOfFuel, List.flatten_cons]
      rw [ih (xs.drop (n - 1)) (by simp only [List.length_drop]; simp at hl; omega)]
      simp [List.take_append_drop]

theorem chunksOf_flatten (n : Nat) (l : List Nat) :
    (chunksOf n l).flatten = l :=
  chunksOfFuel_flatten n l.length l le_rfl

theorem chunksOf_sum_length (n : Nat) (l : List Nat) :
    ((chunksOf n l).map List.length).sum = l.length := by
  rw [← List.length_flatten, chunksOf_flatten]

theorem chunksOfFuel_mem_length (n : Nat) (hn : 0 < n) :
    ∀ (fuel : Nat) (l : List Nat), ∀ c ∈ chunksOfFuel n fuel l, c.length ≤ n := by
  intro fuel
  induction fuel with
  | zero => intro l c hc; simp [chunksOfFuel] at hc
  | succ fuel ih =>
    intro l c hc
    cases l with
    | nil => simp [chunksOfFuel] at hc
    | cons x xs =>
      simp only [chunksOfFuel, List.mem_cons] at hc
      rcases hc with rfl | hc
      · simp only [List.length_cons, List.length_take]
        omega
      · exact ih _ c hc

theorem chunksOf_mem_length (n : Nat) (hn : 0 < n) (l : List Nat) :
    ∀ c ∈ chunksOf n l, c.length ≤ n :=
  chunksOfFuel_mem_length n hn l.length l

theorem deliver_all_ok (cb : Event → Except Error Unit) :
    ∀ evs, (∀ ev ∈ evs, cb ev = .ok ()) → deliver cb evs = (evs, none) := by
  intro evs
  induction evs with
  | nil => intro _; rfl
  | cons ev rest ih =>
    intro h
    simp only [deliver, h ev (List.mem_cons_self ev rest),
      ih fun e he => h e (List.mem_cons_of_mem ev he)]

theorem downloadLoop_cons_unavail (attempt : Backend → Except Error Unit)
    (b : Backend) (rest : List Backend) (h : isUnavailable (attempt b) = true) :
    downloadLoop attempt (b :: rest) =
      (b :: (downloadLoop attempt rest).1, (downloadLoop attempt rest).2) := by
  rcases hrec : downloadLoop attempt rest with ⟨tr, r⟩
  rcases h' : attempt b with e | u
  · rcases e with ⟨k, c⟩
    cases k <;> simp [isUnavailable, h'] at h
    simp [downloadLoop, h', hrec]
  · simp [isUnavailable, h'] at h

theorem downloadLoop_cons_stop (attempt : Backend → Except Error Unit)
    (b : Backend) (rest : List Backend) (h : isUnavailable (attempt b) = false) :
    downloadLoop attempt (b :: rest) = ([b], attempt b) := by
  rcases h' : attempt b with e | u
  · rcases e with ⟨k, c⟩
    cases k <;> simp [isUnavailable, h'] at h <;> simp [downloadLoop, h']
  · cases u
    simp [downloadLoop, h']

/-! ### C1 -/

/-- C1: for every attempt function (standing for
`download_with_backend(·, url, callback)`), `download` invokes the
backends in exactly the order Curl, Hyper, Rustls; a `BackendUnavailable`
outcome moves on to the next backend, the first success or first
non-`BackendUnavailable` error is returned immediately with no later
backend invoked, and when all three are unavailable the result is the
distinct "no working backends" error. -/
theorem c1_fallback_order (attempt : Backend → Except Error Unit) :
    (isUnavailable (attempt .Curl) = false →
      downloadInvoked attempt = [.Curl] ∧ download attempt = attempt .Curl) ∧
    (isUnavailable (attempt .Curl) = true →
      isUnavailable (attempt .Hyper) = false →
      downloadInvoked attempt = [.Curl, .Hyper] ∧
        download attempt = attempt .Hyper) ∧
    (isUnavailable (attempt .Curl) = true →
      isUnavailable (attempt .Hyper) = true →
      isUnavailable (attempt .Rustls) = false →
      downloadInvoked attempt = [.Curl, .Hyper, .Rustls] ∧
        download attempt = attempt .Rustls) ∧
    (isUnavailable (attempt .Curl) = true →
      isUnavailable (attempt .Hyper) = true →
      isUnavailable (attempt .Rustls) = true →
      downloadInvoked attempt = [.Curl, .Hyper, .Rustls] ∧
        download attempt = .error noWorkingBackends) := by
  refine ⟨fun h1 => ?_, fun h1 h2 => ?_, fun h1 h2 h3 => ?_, fun h1 h2 h3 => ?_⟩ <;>
    simp only [downloadInvoked, download, BACKENDS]
  · rw [downloadLoop_cons_stop attempt _ _ h1]
    exact ⟨rfl, rfl⟩
  · rw [downloadLoop_cons_unavail attempt _ _ h1,
      downloadLoop_cons_stop attempt _ _ h2]
    exact ⟨rfl, rfl⟩
  · rw [downloadLoop_cons_unavail attempt _ _ h1,
      downloadLoop_cons_unavail attempt _ _ h2,
      downloadLoop_cons_stop attempt _ _ h3]
    exact ⟨rfl, rfl⟩
  · rw [downloadLoop_cons_unavail attempt _ _ h1,
      downloadLoop_cons_unavail attempt _ _ h2,
      downloadLoop_cons_unavail attempt _ _ h3]
    exact ⟨rfl, rfl⟩

/-- A concrete attempt function: Curl unavailable, Hyper succeeds, Rustls
would fail for real (and must not be reached). -/
def attemptExample : Backend → Except Error Unit
  | .Curl => .error ⟨.BackendUnavailable "curl", []⟩
  | .Hyper => .ok ()
  | .Rustls => .error ⟨.Msg "broken pipe", []⟩

theorem c1_fallback_order_witness :
    downloadInvoked attemptExample = [.Curl, .Hyper] ∧
      download attemptExample = .ok () :=
  (c1_fallback_order attemptExample).2.1 (by decide) (by decide)

/-! ### C2 -/

/-- C2 counterexample: at HTTP status 404 both backends fail with the
`HttpStatus 404` kind, not with the resource-not-found kind
(`FileNotFound`), refuting the claim's first half at the concrete input
status = 404. -/
theorem c2_counterexample :
    (curl_download none [] none 404 fun _ => .ok ()).2
        = .error ⟨.HttpStatus 404, []⟩ ∧
    (hyper_base_download (fun _ => none) ⟨"https", none⟩ (fun _ => none)
          (fun _ => none) (.ok ⟨404, none, []⟩) fun _ => .ok ()).2
        = .error ⟨.HttpStatus 404, []⟩ ∧
    ErrorKind.HttpStatus 404 ≠ ErrorKind.FileNotFound :=
  ⟨rfl, rfl, by decide⟩

/-- C2 (amended): every non-success HTTP status maps to the
`HttpStatus(code)` error kind — the hyper path for any status other than
200, the curl path for any code other than 200 and 0 — so a 404 fails
with `HttpStatus(404)` (not the resource-not-found kind) and a 500 with
`HttpStatus(500)`. -/
theorem c2_nonsuccess_status (status code : Nat) (cl : Option Nat)
    (body : List Nat) (chunks : List (List Nat))
    (cb : Event → Except Error Unit) (fs : String → Option (List Nat))
    (env : String → Option String) (parse : String → Option ParsedUrl)
    (hs : status ≠ 200) (hc1 : code ≠ 200) (hc2 : code ≠ 0)
    (hcb : ∀ ev, cb ev = .ok ()) :
    (hyper_base_download fs ⟨"https", none⟩ env parse
          (.ok ⟨status, cl, body⟩) cb).2 = .error ⟨.HttpStatus status, []⟩ ∧
    (curl_download cl chunks none code cb).2
        = .error ⟨.HttpStatus code, []⟩ := by
  constructor
  · simp [hyper_base_download, download_from_file_url, hs]
  · simp [curl_download, deliver_all_ok cb _ fun ev _ => hcb ev, hc1, hc2]

theorem c2_nonsuccess_status_witness :
    (hyper_base_download (fun _ => none) ⟨"https", none⟩ (fun _ => none)
          (fun _ => none) (.ok ⟨404, none, []⟩) fun _ => .ok ()).2
        = .error ⟨.HttpStatus 404, []⟩ ∧
    (curl_download none [] none 500 fun _ => .ok ()).2
        = .error ⟨.HttpStatus 500, []⟩ :=
  c2_nonsuccess_status 404 500 none [] [] (fun _ => .ok ()) (fun _ => none)
    (fun _ => none) (fun _ => none) (by decide) (by decide) (by decide)
    fun _ => rfl

/-! ### C3 -/

/-- The final step of `proxy_from_env` (lib.rs lines 607-613): how one
chosen proxy setting string is interpreted — parse it, require a host,
default the port to 8080. -/
def resolveSetting (parse : String → Option ParsedUrl) (v : String) :
    Option (String × Nat) :=
  match parse v with
  | some proxy_url =>
    match proxy_url.host with
    | some host => some (host, proxy_url.port.getD 8080)
    | none => none
  | none => none

/-- The proxy resolution procedure exactly as the claim words it (a
refinement target written from the claim, not from the source): for each
of the three settings both the lower-case and the upper-case variant are
consulted, lower-case first. -/
def proxy_resolver_claimed (env : String → Option String)
    (parse : String → Option ParsedUrl) (scheme : String) :
    Option (String × Nat) :=
  let https := (env "https_proxy").orElse fun _ => env "HTTPS_PROXY"
  let http := (env "http_proxy").orElse fun _ => env "HTTP_PROXY"
  let all := (env "all_proxy").orElse fun _ => env "ALL_PROXY"
  match (match scheme with
    | "https" => https.or (http.or all)
    | "http" => http.or all
    | _ => all) with
  | some v => resolveSetting parse v
  | none => none

/-- An environment where only the upper-case `HTTP_PROXY` is set. -/
def envUpperHttpOnly : String → Option String := fun k =>
  if k = "HTTP_PROXY" then some "http://proxy.example:9999" else none

/-- A parser knowing exactly the proxy URL of the claim's example. -/
def parseProxyExample : String → Option ParsedUrl := fun s =>
  if s = "http://proxy.example:9999" then some ⟨some "proxy.example", some 9999⟩
  else none

/-- C3 counterexample: the claim says each setting is checked in both its
lower-case and upper-case variant, but the source consults only the
lower-case `http_proxy`.  With only `HTTP_PROXY` set, the claimed
procedure finds the proxy while `proxy_from_env` returns none. -/
theorem c3_counterexample :
    proxy_from_env envUpperHttpOnly parseProxyExample "https" = none ∧
    proxy_resolver_claimed envUpperHttpOnly parseProxyExample "https"
      = some ("proxy.example", 9999) :=
  ⟨rfl, rfl⟩

/-- C3 (amended): for an HTTPS URL the resolver consults, in order,
`https_proxy`, `HTTPS_PROXY`, `http_proxy` (lower-case only — the source
has no upper-case check for the generic HTTP setting), `all_proxy`,
`ALL_PROXY`; the chosen setting is parsed, a hostless or unparsable
setting yields no proxy rather than an error, the port defaults to 8080,
and the claim's two concrete instances hold. -/
theorem c3_proxy_resolution (env : String → Option String)
    (parse : String → Option ParsedUrl) :
    (∀ v, env "https_proxy" = some v →
      proxy_from_env env parse "https" = resolveSetting parse v) ∧
    (∀ v, env "https_proxy" = none → env "HTTPS_PROXY" = some v →
      proxy_from_env env parse "https" = resolveSetting parse v) ∧
    (∀ v, env "https_proxy" = none → env "HTTPS_PROXY" = none →
      env "http_proxy" = some v →
      proxy_from_env env parse "https" = resolveSetting parse v) ∧
    (∀ v, env "https_proxy" = none → env "HTTPS_PROXY" = none →
      env "http_proxy" = none → env "all_proxy" = some v →
      proxy_from_env env parse "https" = resolveSetting parse v) ∧
    (∀ v, env "https_proxy" = none → env "HTTPS_PROXY" = none →
      env "http_proxy" = none → env "all_proxy" = none →
      env "ALL_PROXY" = some v →
      proxy_from_env env parse "https" = resolveSetting parse v) ∧
    (env "https_proxy" = none → env "HTTPS_PROXY" = none →
      env "http_proxy" = none → env "all_proxy" = none →
      env "ALL_PROXY" = none →
      proxy_from_env env parse "https" = none) ∧
    (∀ v, parse v = none → resolveSetting parse v = none) ∧
    (∀ v p, parse v = some ⟨none, p⟩ → resolveSetting parse v = none) ∧
    (∀ v h, parse v = some ⟨some h, none⟩ →
      resolveSetting parse v = some (h, 8080)) ∧
    (∀ v, env "https_proxy" = none → env "HTTPS_PROXY" = some v →
      parse v = some ⟨some "proxy.example", some 9999⟩ →
      proxy_from_env env parse "https" = some ("proxy.example", 9999)) := by
  refine ⟨fun v h1 => ?_, fun v h1 h2 => ?_, fun v h1 h2 h3 => ?_,
    fun v h1 h2 h3 h4 => ?_, fun v h1 h2 h3 h4 h5 => ?_,
    fun h1 h2 h3 h4 h5 => ?_, fun v hp => ?_, fun v p hp => ?_,
    fun v h hp => ?_, fun v h1 h2 hp => ?_⟩ <;>
    simp [proxy_from_env, resolveSetting, Option.orElse, Option.or, *]

/-- An environment where only the lower-case `https_proxy` is set. -/
def envLowerHttpsOnly : String → Option String := fun k =>
  if k = "https_proxy" then some "http://proxy.example:9999" else none

theorem c3_proxy_resolution_witness :
    proxy_from_env envLowerHttpsOnly parseProxyExample "https"
      = resolveSetting parseProxyExample "http://proxy.example:9999" :=
  (c3_proxy_resolution envLowerHttpsOnly parseProxyExample).1
    "http://proxy.example:9999" rfl

/-! ### C4 -/

theorem dataBytes_map_data (chunks : List (List Nat)) :
    dataBytes (chunks.map Event.DownloadDataReceived) = chunks.flatten := by
  simp only [dataBytes, List.filterMap_map]
  show (List.filterMap some chunks).flatten = chunks.flatten
  simp

theorem download_from_file_url_found (fs : String → Option (List Nat))
    (url : Url) (p : String) (content : List Nat)
    (cb : Event → Except Error Unit) (hscheme : url.scheme = "file")
    (hpath : url.filePath = some p) (hfs : fs p = some content)
    (hcb : ∀ ev, cb ev = .ok ()) :
    download_from_file_url fs url cb
      = ((chunksOf 0x10000 content).map Event.DownloadDataReceived, .ok true) := by
  simp [download_from_file_url, hscheme, hpath, hfs,
    deliver_all_ok cb _ fun ev _ => hcb ev]

theorem download_from_file_url_missing (fs : String → Option (List Nat))
    (url : Url) (p : String) (cb : Event → Except Error Unit)
    (hscheme : url.scheme = "file") (hpath : url.filePath = some p)
    (hfs : fs p = none) :
    download_from_file_url fs url cb = ([], .error ⟨.FileNotFound, []⟩) := by
  simp [download_from_file_url, hscheme, hpath, hfs]

/-- C4 counterexample: a missing local file fails with the `FileNotFound`
kind, but an HTTP not-found fails with `HttpStatus 404`, so the "same
error kind as an HTTP not-found" part of the claim is false at these
concrete inputs. -/
theorem c4_counterexample :
    (download_from_file_url (fun _ => none) ⟨"file", some "missing.bin"⟩
          fun _ => .ok ()).2 = .error ⟨.FileNotFound, []⟩ ∧
    (hyper_base_download (fun _ => none) ⟨"https", none⟩ (fun _ => none)
          (fun _ => none) (.ok ⟨404, none, []⟩) fun _ => .ok ()).2
        = .error ⟨.HttpStatus 404, []⟩ ∧
    (⟨.FileNotFound, []⟩ : Error) ≠ ⟨.HttpStatus 404, []⟩ :=
  ⟨rfl, rfl, by decide⟩

/-- C4 (amended): for every file-scheme URL naming an existing regular
file of N bytes, the download emits only `DataReceived` events, each
chunk at most 64 KiB, concatenating in order to exactly the N original
bytes, with no content-length event, succeeds, and is independent of the
network (the response never enters the result); a missing file fails with
the dedicated `FileNotFound` kind — which, in this code, is *not* the
kind an HTTP not-found produces (that is `HttpStatus 404`). -/
theorem c4_file_fast_path (fs : String → Option (List Nat)) (url : Url)
    (p : String) (content : List Nat) (cb : Event → Except Error Unit)
    (hscheme : url.scheme = "file") (hpath : url.filePath = some p)
    (hcb : ∀ ev, cb ev = .ok ()) :
    (fs p = some content →
      download_from_file_url fs url cb
          = ((chunksOf 0x10000 content).map Event.DownloadDataReceived, .ok true) ∧
      dataBytes ((chunksOf 0x10000 content).map Event.DownloadDataReceived)
          = content ∧
      (∀ c ∈ chunksOf 0x10000 content, c.length ≤ 0x10000) ∧
      (∀ ev ∈ (chunksOf 0x10000 content).map Event.DownloadDataReceived,
        ∀ len, ev ≠ .DownloadContentLengthReceived len)) ∧
    (fs p = none →
      download_from_file_url fs url cb = ([], .error ⟨.FileNotFound, []⟩)) ∧
    (∀ env parse r1 r2,
      hyper_base_download fs url env parse r1 cb
        = hyper_base_download fs url env parse r2 cb) := by
  refine ⟨fun hfs => ⟨download_from_file_url_found fs url p content cb
      hscheme hpath hfs hcb, ?_, chunksOf_mem_length 0x10000 (by decide) content,
      ?_⟩,
    fun hfs => download_from_file_url_missing fs url p cb hscheme hpath hfs,
    fun env parse r1 r2 => ?_⟩
  · rw [dataBytes_map_data, chunksOf_flatten]
  · intro ev hev len
    simp only [List.mem_map] at hev
    obtain ⟨c, _, rfl⟩ := hev
    simp
  · rcases hfs : fs p with _ | content'
    · simp only [hyper_base_download,
        download_from_file_url_missing fs url p cb hscheme hpath hfs]
    · simp only [hyper_base_download,
        download_from_file_url_found fs url p content' cb hscheme hpath hfs hcb]

theorem c4_file_fast_path_witness :
    download_from_file_url (fun q => if q = "src.bin" then some [1, 2, 3] else none)
        ⟨"file", some "src.bin"⟩ (fun _ => .ok ())
      = ((chunksOf 0x10000 [1, 2, 3]).map Event.DownloadDataReceived, .ok true) ∧
    dataBytes ((chunksOf 0x10000 [1, 2, 3]).map Event.DownloadDataReceived)
      = [1, 2, 3] :=
  let h := c4_file_fast_path
    (fun q => if q = "src.bin" then some [1, 2, 3] else none)
    ⟨"file", some "src.bin"⟩ "src.bin" [1, 2, 3] (fun _ => .ok ())
    rfl rfl (fun _ => rfl)
  ⟨(h.1 rfl).1, (h.1 rfl).2.1⟩

/-! ### C5 -/

theorem runSink_paired_append (f : Event → Except Error Unit) :
    ∀ (events : List Event) (content : List Nat) (tail : List SinkOp),
      dataWritesPaired tail = true →
      dataWritesPaired ((runSink (some f) events content).2.1 ++ tail) = true := by
  intro events
  induction events with
  | nil =>
    intro content tail ht
    simpa [runSink] using ht
  | cons ev rest ih =>
    intro content tail ht
    cases ev with
    | DownloadContentLengthReceived len =>
      rcases hf : f (.DownloadContentLengthReceived len) with e | u
      · simp [runSink, hf, dataWritesPaired, ht]
      · cases u
        rcases hr : runSink (some f) rest content with ⟨c, ops, r⟩
        have hih := ih content tail ht
        rw [hr] at hih
        simp only [runSink, hf, hr] at *
        simpa [dataWritesPaired] using hih
    | DownloadDataReceived d =>
      rcases hf : f (.DownloadDataReceived d) with e | u
      · simp [runSink, hf, dataWritesPaired, ht]
      · cases u
        rcases hr : runSink (some f) rest (content ++ d) with ⟨c, ops, r⟩
        have hih := ih (content ++ d) tail ht
        rw [hr] at hih
        simp only [runSink, hf, hr] at *
        simpa [dataWritesPaired] using hih

theorem isPrefix_cons_cons {α : Type} (a : α) {l L : List α}
    (h : l <+: L) : a :: l <+: a :: L := by
  obtain ⟨t, ht⟩ := h
  exact ⟨t, by simp [ht]⟩

theorem runSink_cbCalls_prefix (f : Event → Except Error Unit) :
    ∀ (events : List Event) (content : List Nat),
      cbCalls (runSink (some f) events content).2.1 <+: events := by
  intro events
  induction events with
  | nil => intro content; simp [runSink, cbCalls]
  | cons ev rest ih =>
    intro content
    rcases hf : f ev with e | u
    · cases ev <;> simp [runSink, hf, cbCalls]
    · cases u
      cases ev with
      | DownloadContentLengthReceived len =>
        rcases hr : runSink (some f) rest content with ⟨c, ops, r⟩
        have hih := ih content
        rw [hr] at hih
        simp only [runSink, hf, hr]
        simpa [cbCalls] using isPrefix_cons_cons (Event.DownloadContentLengthReceived len) hih
      | DownloadDataReceived d =>
        rcases hr : runSink (some f) rest (content ++ d) with ⟨c, ops, r⟩
        have hih := ih (content ++ d)
        rw [hr] at hih
        simp only [runSink, hf, hr]
        simpa [cbCalls] using isPrefix_cons_cons (Event.DownloadDataReceived d) hih

theorem runSink_ok (f : Event → Except Error Unit) :
    ∀ (events : List Event) (content : List Nat),
      (runSink (some f) events content).2.2 = .ok () →
      (runSink (some f) events content).1 = content ++ dataBytes events ∧
        cbCalls (runSink (some f) events content).2.1 = events := by
  intro events
  induction events with
  | nil => intro content _; simp [runSink, cbCalls, dataBytes]
  | cons ev rest ih =>
    intro content hok
    rcases hf : f ev with e | u
    · exfalso
      cases ev <;> simp [runSink, hf] at hok
    · cases u
      cases ev with
      | DownloadContentLengthReceived len =>
        rcases hr : runSink (some f) rest content with ⟨c, ops, r⟩
        simp only [runSink, hf, hr] at hok ⊢
        have hih := ih content
        rw [hr] at hih
        obtain ⟨h1, h2⟩ := hih (by simpa using hok)
        simp [cbCalls, dataBytes] at h1 h2 ⊢
        exact ⟨h1, h2⟩
      | DownloadDataReceived d =>
        rcases hr : runSink (some f) rest (content ++ d) with ⟨c, ops, r⟩
        simp only [runSink, hf, hr] at hok ⊢
        have hih := ih (content ++ d)
        rw [hr] at hih
        obtain ⟨h1, h2⟩ := hih (by simpa using hok)
        simp [cbCalls, dataBytes] at h1 h2 ⊢
        exact ⟨by simpa using h1, h2⟩

theorem runSink_error (f : Event → Except Error Unit) :
    ∀ (events : List Event) (content : List Nat) (e : Error),
      (runSink (some f) events content).2.2 = .error e →
      ∃ ev ∈ events, f ev = .error e := by
  intro events
  induction events with
  | nil => intro content e h; simp [runSink] at h
  | cons ev rest ih =>
    intro content e h
    rcases hf : f ev with e' | u
    · refine ⟨ev, by simp, ?_⟩
      cases ev <;> simp [runSink, hf] at h <;> rw [hf, h]
    · cases u
      cases ev with
      | DownloadContentLengthReceived len =>
        rcases hr : runSink (some f) rest content with ⟨c, ops, r⟩
        simp only [runSink, hf, hr] at h
        obtain ⟨ev', hmem, hev'⟩ := ih content e (by rw [hr]; simpa using h)
        exact ⟨ev', by simp [hmem], hev'⟩
      | DownloadDataReceived d =>
        rcases hr : runSink (some f) rest (content ++ d) with ⟨c, ops, r⟩
        simp only [runSink, hf, hr] at h
        obtain ⟨ev', hmem, hev'⟩ := ih (content ++ d) e (by rw [hr]; simpa using h)
        exact ⟨ev', by simp [hmem], hev'⟩

/-- C5: for the path-writing workhorse with a caller callback supplied —
the file is created first; every data chunk is written immediately before
the caller's callback receives its event; the caller's callback receives
a prefix of the transfer's events, and all of them when the call
succeeds; on success the trace ends with the durable sync and the file
holds exactly the received bytes; on any error the trace ends with the
file deletion, no file remains, and the returned error is, unchanged,
either the backend's error or the caller callback's own error. -/
theorem c5_path_sink (events : List Event) (final : Except Error Unit)
    (f : Event → Except Error Unit) :
    (download_to_path_with_backend events final (some f)).2.1.head?
        = some .createFile ∧
    dataWritesPaired (download_to_path_with_backend events final (some f)).2.1
        = true ∧
    cbCalls (download_to_path_with_backend events final (some f)).2.1
        <+: events ∧
    ((download_to_path_with_backend events final (some f)).2.2 = .ok () →
      cbCalls (download_to_path_with_backend events final (some f)).2.1
          = events ∧
      (download_to_path_with_backend events final (some f)).2.1.getLast?
          = some .syncData ∧
      (download_to_path_with_backend events final (some f)).1
          = some (dataBytes events)) ∧
    (∀ e,
      (download_to_path_with_backend events final (some f)).2.2 = .error e →
      (download_to_path_with_backend events final (some f)).2.1.getLast?
          = some .removeFile ∧
      (download_to_path_with_backend events final (some f)).1 = none ∧
      (final = .error e ∨ ∃ ev ∈ events, f ev = .error e)) := by
  rcases hr : runSink (some f) events [] with ⟨c, ops, r⟩
  have hpair : dataWritesPaired (ops ++ [SinkOp.removeFile]) = true := by
    have := runSink_paired_append f events [] [SinkOp.removeFile] rfl
    rwa [hr] at this
  have hpair2 : dataWritesPaired (ops ++ [SinkOp.syncData]) = true := by
    have := runSink_paired_append f events [] [SinkOp.syncData] rfl
    rwa [hr] at this
  have hpref : cbCalls ops <+: events := by
    have := runSink_cbCalls_prefix f events []
    rwa [hr] at this
  rcases r with e | u
  · obtain ⟨ev, hmem, hev⟩ := runSink_error f events [] e (by rw [hr])
    have hD : download_to_path_with_backend events final (some f)
        = (none, SinkOp.createFile :: (ops ++ [SinkOp.removeFile]), .error e) := by
      simp [download_to_path_with_backend, hr]
    refine ⟨?_, ?_, ?_, ?_, ?_⟩
    · rw [hD]
      rfl
    · rw [hD]
      simpa [dataWritesPaired] using hpair
    · rw [hD]
      simpa [cbCalls, List.filterMap_append] using hpref
    · intro h
      rw [hD] at h
      simp at h
    · intro e' he'
      rw [hD] at he'
      simp only [Except.error.injEq] at he'
      subst he'
      refine ⟨?_, by rw [hD], .inr ⟨ev, hmem, hev⟩⟩
      rw [hD]
      show (SinkOp.createFile :: (ops ++ [SinkOp.removeFile])).getLast? = _
      rw [← List.cons_append, List.getLast?_concat]
  · cases u
    obtain ⟨hcont, hcalls⟩ := runSink_ok f events [] (by rw [hr])
    rw [hr] at hcont hcalls
    simp only [List.nil_append] at hcont hcalls
    rcases final with e | u
    · have hD : download_to_path_with_backend events (.error e) (some f)
          = (none, SinkOp.createFile :: (ops ++ [SinkOp.removeFile]), .error e) := by
        simp [download_to_path_with_backend, hr]
      refine ⟨?_, ?_, ?_, ?_, ?_⟩
      · rw [hD]
        rfl
      · rw [hD]
        simpa [dataWritesPaired] using hpair
      · rw [hD]
        simpa [cbCalls, List.filterMap_append] using hpref
      · intro h
        rw [hD] at h
        simp at h
      · intro e' he'
        rw [hD] at he'
        simp only [Except.error.injEq] at he'
        subst he'
        refine ⟨?_, by rw [hD], .inl rfl⟩
        rw [hD]
        show (SinkOp.createFile :: (ops ++ [SinkOp.removeFile])).getLast? = _
        rw [← List.cons_append, List.getLast?_concat]
    · cases u
      have hD : download_to_path_with_backend events (.ok ()) (some f)
          = (some c, SinkOp.createFile :: (ops ++ [SinkOp.syncData]), .ok ()) := by
        simp [download_to_path_with_backend, hr]
      refine ⟨?_, ?_, ?_, fun _ => ⟨?_, ?_, ?_⟩, ?_⟩
      · rw [hD]
        rfl
      · rw [hD]
        simpa [dataWritesPaired] using hpair2
      · rw [hD]
        simpa [cbCalls, List.filterMap_append] using hpref
      · rw [hD]
        simpa [cbCalls, List.filterMap_append] using hcalls
      · rw [hD]
        show (SinkOp.createFile :: (ops ++ [SinkOp.syncData])).getLast? = _
        rw [← List.cons_append, List.getLast?_concat]
      · rw [hD, hcont]
      · intro e' he'
        rw [hD] at he'
        simp at he'

theorem c5_path_sink_witness :
    cbCalls (download_to_path_with_backend
        [Event.DownloadDataReceived [1, 2], Event.DownloadContentLengthReceived 7]
        (.ok ()) (some fun _ => .ok ())).2.1
      = [Event.DownloadDataReceived [1, 2], Event.DownloadContentLengthReceived 7] ∧
    (download_to_path_with_backend
        [Event.DownloadDataReceived [1, 2], Event.DownloadContentLengthReceived 7]
        (.ok ()) (some fun _ => .ok ())).2.1.getLast? = some .syncData ∧
    (download_to_path_with_backend
        [Event.DownloadDataReceived [1, 2], Event.DownloadContentLengthReceived 7]
        (.ok ()) (some fun _ => .ok ())).1
      = some (dataBytes
          [Event.DownloadDataReceived [1, 2], Event.DownloadContentLengthReceived 7]) :=
  (c5_path_sink
      [Event.DownloadDataReceived [1, 2], Event.DownloadContentLengthReceived 7]
      (.ok ()) (fun _ => .ok ())).2.2.2.1 rfl

/-! ### C6 -/

theorem download_to_path_with_backend_error_none (events : List Event)
    (final : Except Error Unit) (cb : Option (Event → Except Error Unit))
    (e : Error)
    (h : (download_to_path_with_backend events final cb).2.2 = .error e) :
    (download_to_path_with_backend events final cb).1 = none := by
  rcases hr : runSink cb events [] with ⟨c, ops, r⟩
  rcases r with e' | u
  · simp [download_to_path_with_backend, hr]
  · cases u
    rcases final with e' | u
    · simp [download_to_path_with_backend, hr]
    · cases u
      simp [download_to_path_with_backend, hr] at h

theorem downloadToPathLoop_all_unavail
    (attempt : Backend → List Event × Except Error Unit)
    (cb : Option (Event → Except Error Unit)) :
    ∀ (bs : List Backend) (disk : Option (List Nat)),
      (∀ b ∈ bs, isUnavailable
        (download_to_path_with_backend (attempt b).1 (attempt b).2 cb).2.2
          = true) →
      (downloadToPathLoop attempt cb disk bs).2 = .error noWorkingBackends ∧
      (downloadToPathLoop attempt cb disk bs).1
        = (if bs.isEmpty then disk else none) := by
  intro bs
  induction bs with
  | nil => intro disk _; simp [downloadToPathLoop]
  | cons b rest ih =>
    intro disk h
    have hb := h b (List.mem_cons_self b rest)
    rcases hD : download_to_path_with_backend (attempt b).1 (attempt b).2 cb
      with ⟨d, ops, r⟩
    rw [hD] at hb
    rcases r with e | u
    · have hd : d = none := by
        have := download_to_path_with_backend_error_none (attempt b).1
          (attempt b).2 cb e (by rw [hD])
        rwa [hD] at this
      subst hd
      rcases e with ⟨k, c⟩
      cases k <;> simp [isUnavailable] at hb
      have hrest := ih none fun b' hb' => h b' (List.mem_cons_of_mem b hb')
      simp only [downloadToPathLoop, hD]
      cases rest <;> simpa using hrest
    · simp [isUnavailable] at hb

/-- C6: when every backend's attempt on the path-writing entry point
reports a `BackendUnavailable`-kind error, the entry point returns the
"no working backends" error and no file remains at the destination path;
and a backend absent from the build ignores its URL and callback, emits
no event, and returns the `BackendUnavailable` kind carrying its name
without attempting any I/O. -/
theorem c6_all_unavailable
    (attempt : Backend → List Event × Except Error Unit)
    (cb : Option (Event → Except Error Unit))
    (h : ∀ b, isUnavailable
      (download_to_path_with_backend (attempt b).1 (attempt b).2 cb).2.2
        = true) :
    download_to_path attempt cb = (none, .error noWorkingBackends) ∧
    (∀ url cb', curl_unavailable url cb'
        = ([], .error ⟨.BackendUnavailable "curl", []⟩)) ∧
    (∀ url cb', hyper_unavailable url cb'
        = ([], .error ⟨.BackendUnavailable "hyper", []⟩)) ∧
    (∀ url cb', rustls_unavailable url cb'
        = ([], .error ⟨.BackendUnavailable "rustls", []⟩)) := by
  obtain ⟨h1, h2⟩ :=
    downloadToPathLoop_all_unavail attempt cb BACKENDS none fun b _ => h b
  refine ⟨?_, fun _ _ => rfl, fun _ _ => rfl, fun _ _ => rfl⟩
  show downloadToPathLoop attempt cb none BACKENDS = _
  rcases hE : downloadToPathLoop attempt cb none BACKENDS with ⟨d, r⟩
  rw [hE] at h1 h2
  simp only [BACKENDS, List.isEmpty_cons, if_neg] at h1 h2
  simp at h1 h2
  rw [h1, h2]

/-- Backend attempts that all report build-time unavailability. -/
def attemptUnavail : Backend → List Event × Except Error Unit := fun b =>
  ([], .error ⟨.BackendUnavailable
    (match b with
      | .Curl => "curl"
      | .Hyper => "hyper"
      | .Rustls => "rustls"), []⟩)

theorem c6_all_unavailable_witness :
    download_to_path attemptUnavail none = (none, .error noWorkingBackends) :=
  (c6_all_unavailable attemptUnavail none fun b => by cases b <;> rfl).1

/-! ### C7 -/

/-- C7: when the caller's callback fails on some event of a network
transfer, the transfer is aborted at that event and the callback's error
value is returned unchanged — by curl through the `cberr` stash consulted
before any libcurl error is wrapped, by hyper through direct `try!`
propagation — never wrapped or substituted. -/
theorem c7_callback_error_verbatim (cb : Event → Except Error Unit)
    (cl : Option Nat) (body : List Nat) (netErr : Option CurlErr)
    (code : Nat) (fs : String → Option (List Nat))
    (env : String → Option String) (parse : String → Option ParsedUrl)
    (e : Error) (delivered : List Event)
    (h : deliver cb (transferEvents cl (chunksOf 0x10000 body))
      = (delivered, some e)) :
    curl_download cl (chunksOf 0x10000 body) netErr code cb
        = (delivered, .error e) ∧
    hyper_base_download fs ⟨"https", none⟩ env parse (.ok ⟨200, cl, body⟩) cb
        = (delivered, .error e) := by
  constructor
  · simp [curl_download, h]
  · simp [hyper_base_download, download_from_file_url, h]

/-- A caller callback that fails on the first data event. -/
def cbFailFirstData : Event → Except Error Unit := fun ev =>
  match ev with
  | .DownloadDataReceived _ => .error ⟨.Msg "caller failed", []⟩
  | _ => .ok ()

theorem c7_callback_error_verbatim_witness :
    curl_download none (chunksOf 0x10000 [1, 2, 3]) none 200 cbFailFirstData
        = ([Event.DownloadDataReceived [1, 2, 3]],
            .error ⟨.Msg "caller failed", []⟩) ∧
    hyper_base_download (fun _ => none) ⟨"https", none⟩ (fun _ => none)
        (fun _ => none) (.ok ⟨200, none, [1, 2, 3]⟩) cbFailFirstData
        = ([Event.DownloadDataReceived [1, 2, 3]],
            .error ⟨.Msg "caller failed", []⟩) :=
  c7_callback_error_verbatim cbFailFirstData none [1, 2, 3] none 200
    (fun _ => none) (fun _ => none) (fun _ => none)
    ⟨.Msg "caller failed", []⟩ [Event.DownloadDataReceived [1, 2, 3]] rfl

/-! ### C9 -/

theorem runSink_none_spec (events : List Event) : ∀ (content : List Nat),
    (runSink none events content).1 = content ++ dataBytes events ∧
    (runSink none events content).2.2 = .ok () := by
  induction events with
  | nil => intro content; simp [runSink, dataBytes]
  | cons ev rest ih =>
    intro content
    cases ev with
    | DownloadContentLengthReceived len =>
      rcases hr : runSink none rest content with ⟨c, ops, r⟩
      obtain ⟨h1, h2⟩ := ih content
      rw [hr] at h1 h2
      simp only [runSink, hr]
      simpa [dataBytes] using ⟨h1, h2⟩
    | DownloadDataReceived d =>
      rcases hr : runSink none rest (content ++ d) with ⟨c, ops, r⟩
      obtain ⟨h1, h2⟩ := ih (content ++ d)
      rw [hr] at h1 h2
      simp only [runSink, hr]
      simp only at h1 h2
      refine ⟨?_, h2⟩
      rw [h1]
      simp [dataBytes]

/-- C9: a local source file of exactly 0x20001 bytes (one byte more than
two full 64 KiB chunks) round-trips through the path-writing entry point:
the written file is byte-identical to the source, the call succeeds, the
emitted chunk lengths are each at most 0x10000 and sum to exactly
0x20001, no content-length event is emitted, and the event stream is
exactly what the file fast path delivers. -/
theorem c9_roundtrip (content : List Nat) (h : content.length = 0x20001) :
    download_to_path
        (fun _ => ((chunksOf 0x10000 content).map Event.DownloadDataReceived,
          .ok ()))
        none
      = (some content, .ok ()) ∧
    ((chunksOf 0x10000 content).map List.length).sum = 0x20001 ∧
    (∀ c ∈ chunksOf 0x10000 content, c.length ≤ 0x10000) ∧
    (∀ ev ∈ (chunksOf 0x10000 content).map Event.DownloadDataReceived,
      ∀ len, ev ≠ .DownloadContentLengthReceived len) ∧
    (∀ (fs : String → Option (List Nat)) (url : Url) (p : String)
        (cb : Event → Except Error Unit),
      url.scheme = "file" → url.filePath = some p → fs p = some content →
      (∀ ev, cb ev = .ok ()) →
      (download_from_file_url fs url cb).1
        = (chunksOf 0x10000 content).map Event.DownloadDataReceived) := by
  have hdb : dataBytes ((chunksOf 0x10000 content).map Event.DownloadDataReceived)
      = content := by
    rw [dataBytes_map_data, chunksOf_flatten]
  refine ⟨?_, ?_, chunksOf_mem_length 0x10000 (by decide) content, ?_, ?_⟩
  · rcases hr : runSink none
        ((chunksOf 0x10000 content).map Event.DownloadDataReceived) []
      with ⟨c, ops, r⟩
    obtain ⟨h1, h2⟩ := runSink_none_spec
      ((chunksOf 0x10000 content).map Event.DownloadDataReceived) []
    rw [hr] at h1 h2
    simp only [List.nil_append] at h1 h2
    simp [download_to_path, downloadToPathLoop, BACKENDS,
      download_to_path_with_backend, hr, h2, h1, hdb]
  · rw [chunksOf_sum_length, h]
  · intro ev hev len
    simp only [List.mem_map] at hev
    obtain ⟨c, _, rfl⟩ := hev
    simp
  · intro fs url p cb hscheme hpath hfs hcb
    rw [download_from_file_url_found fs url p content cb hscheme hpath hfs hcb]

theorem c9_roundtrip_witness :
    download_to_path
        (fun _ => ((chunksOf 0x10000 (List.replicate 0x20001 0)).map
          Event.DownloadDataReceived, .ok ()))
        none
      = (some (List.replicate 0x20001 0), .ok ()) ∧
    ((chunksOf 0x10000 (List.replicate 0x20001 0)).map List.length).sum
      = 0x20001 :=
  ⟨(c9_roundtrip (List.replicate 0x20001 0) (by rw [List.length_replicate])).1,
    (c9_roundtrip (List.replicate 0x20001 0) (by rw [List.length_replicate])).2.1⟩

/-! ### C10 -/

/-- C10 (implicit behaviour): when the caller's callback fails with an
error whose kind is `BackendUnavailable`, a backend propagates it
verbatim (here, the hyper transfer loop), but the orchestrator then
treats it as the soft fallback signal: it proceeds to the next backend —
invoking all three — and, when every backend relays the same callback
error, returns the "no working backends" error rather than the callback's
own error value, so verbatim propagation does not hold at the public
interface for this error kind. -/
theorem c10_callback_unavailable_fallback (cb : Event → Except Error Unit)
    (name : String) (e : Error) (cl : Option Nat) (body : List Nat)
    (fs : String → Option (List Nat)) (env : String → Option String)
    (parse : String → Option ParsedUrl) (delivered : List Event)
    (hkind : e.kind = .BackendUnavailable name)
    (h : deliver cb (transferEvents cl (chunksOf 0x10000 body))
      = (delivered, some e)) :
    (hyper_base_download fs ⟨"https", none⟩ env parse (.ok ⟨200, cl, body⟩) cb).2
        = .error e ∧
    downloadInvoked (fun _ => .error e) = [.Curl, .Hyper, .Rustls] ∧
    download (fun _ => .error e) = .error noWorkingBackends ∧
    download (fun _ => .error e) ≠ .error e := by
  have hbu : isUnavailable (.error e) = true := by
    simp [isUnavailable, hkind]
  have h3 : downloadLoop (fun _ => .error e) BACKENDS
      = ([.Curl, .Hyper, .Rustls], .error noWorkingBackends) := by
    show downloadLoop (fun _ => .error e) [.Curl, .Hyper, .Rustls] = _
    rw [downloadLoop_cons_unavail (fun _ => .error e) .Curl _ hbu,
      downloadLoop_cons_unavail (fun _ => .error e) .Hyper _ hbu,
      downloadLoop_cons_unavail (fun _ => .error e) .Rustls _ hbu]
    rfl
  refine ⟨?_, ?_, ?_, ?_⟩
  · simp [hyper_base_download, download_from_file_url, h]
  · show (downloadLoop (fun _ => .error e) BACKENDS).1 = _
    rw [h3]
  · show (downloadLoop (fun _ => .error e) BACKENDS).2 = _
    rw [h3]
  · show (downloadLoop (fun _ => .error e) BACKENDS).2 ≠ _
    rw [h3]
    intro hc
    injection hc with hc
    rw [← hc] at hkind
    simp [noWorkingBackends] at hkind

/-- A caller callback that fails on the first data event with a
`BackendUnavailable`-kind error. -/
def cbFailUnavailable : Event → Except Error Unit := fun ev =>
  match ev with
  | .DownloadDataReceived _ => .error ⟨.BackendUnavailable "hyper", []⟩
  | _ => .ok ()

theorem c10_callback_unavailable_fallback_witness :
    download (fun _ => .error ⟨.BackendUnavailable "hyper", []⟩)
        = .error noWorkingBackends ∧
    download (fun _ => .error ⟨.BackendUnavailable "hyper", []⟩)
        ≠ .error ⟨.BackendUnavailable "hyper", []⟩ :=
  ⟨(c10_callback_unavailable_fallback cbFailUnavailable "hyper"
      ⟨.BackendUnavailable "hyper", []⟩ none [1] (fun _ => none) (fun _ => none)
      (fun _ => none) [Event.DownloadDataReceived [1]] rfl rfl).2.2.1,
    (c10_callback_unavailable_fallback cbFailUnavailable "hyper"
      ⟨.BackendUnavailable "hyper", []⟩ none [1] (fun _ => none) (fun _ => none)
      (fun _ => none) [Event.DownloadDataReceived [1]] rfl rfl).2.2.2⟩

/-! ### C8 -/

/-- C8 counterexample: in the rustls adapter's read path the result of
`read_tls` is `unwrap`ped (lib.rs line 473): with an unpoisoned lock and
one pump iteration whose underlying stream read fails, `read` panics
instead of returning an I/O error, refuting the "never panics" part of
the claim for the record-pumping paths. -/
theorem c8_counterexample :
    rustls_read false [(.error (.underlying 5), .ok ())] (.ok [7])
      = .panicked "read_tls: unwrapped an Err value" := rfl

/-- C8 (amended): every adapter operation converts a poisoned lock into
an ordinary I/O error rather than propagating the poisoning, and the
simple lock-and-delegate operations (all operations of the hyper adapter,
and the rustls adapter's peer-address, timeout, close and flush
operations) never panic and surface the delegate's outcome as an I/O
result; but the rustls adapter's read and write paths, which pump TLS
records to and from the underlying stream, `unwrap` the pump's stream and
record operations: they return the I/O result only when every pump step
succeeds, and panic on a failing step. -/
theorem c8_adapter_ops :
    (∀ (α : Type) (inner : Except IoErr α),
      locked_stream_op true inner = .ret (.error .poisonedTls)) ∧
    (∀ (α : Type) (inner : Except IoErr α),
      locked_stream_op false inner = .ret inner) ∧
    (∀ (α : Type) (p : Bool) (inner : Except IoErr α) (msg : String),
      locked_stream_op p inner ≠ .panicked msg) ∧
    (∀ pump plain, rustls_read true pump plain = .ret (.error .poisonedTls)) ∧
    (∀ res pump, rustls_write true res pump = .ret (.error .poisonedTls)) ∧
    (∀ pump plain, (∀ s ∈ pump, pumpStepOk s = true) →
      rustls_read false pump plain = .ret plain) ∧
    (∀ res pump, (∀ s ∈ pump, writeStepOk s = true) →
      rustls_write false res pump = .ret res) := by
  refine ⟨fun α inner => rfl, fun α inner => rfl,
    fun α p inner msg => ?_, fun pump plain => rfl, fun res pump => rfl,
    fun pump plain => ?_, fun res pump => ?_⟩
  · cases p <;> simp [locked_stream_op, lockStream]
  · induction pump with
    | nil => intro _; rfl
    | cons s rest ih =>
      intro h
      rcases s with ⟨r1, r2⟩
      have hs := h (r1, r2) (List.mem_cons_self _ _)
      rcases r1 with e1 | n1
      · simp [pumpStepOk] at hs
      · rcases r2 with e2 | u2
        · simp [pumpStepOk] at hs
        · cases u2
          have hrest := ih fun s hs' => h s (List.mem_cons_of_mem _ hs')
          simpa [rustls_read, lockStream, readPump] using hrest
  · induction pump with
    | nil => intro _; rfl
    | cons s rest ih =>
      intro h
      have hs := h s (List.mem_cons_self _ _)
      rcases s with e1 | n1
      · simp [writeStepOk] at hs
      · have hrest := ih fun s hs' => h s (List.mem_cons_of_mem _ hs')
        simpa [rustls_write, lockStream, writePump] using hrest

theorem c8_adapter_ops_witness :
    rustls_read false [(.ok 3, .ok ())] (.ok [9]) = .ret (.ok [9]) :=
  c8_adapter_ops.2.2.2.2.2.1 [(.ok 3, .ok ())] (.ok [9]) (by decide)

end Download
